import Mathlib

/-!
Verification development for the `luminance_procedural_world` streaming
voxel-terrain engine (`src/terrain/mod.rs`, `src/terrain/voxel.rs`).

The Rust source is shallowly embedded: machine integers (`i32`, `isize`,
`usize`) are modelled as `Int`/`Nat` (all values handled by the engine stay
far from the wrap-around range except where explicitly noted), the sector
cache (`HashMap<(i32,i32,i32), Sector>`) is modelled as an association list
keyed by integer triples, channels are modelled as explicit message lists,
and the two opaque collaborators that are not part of this repository's
core (the mesh-construction function and the renderer handle) are
parameters.  `f32` values that the engine computes with (sector distances
in the eviction test) are all integral; the rounding they undergo is
modelled exactly by `rnd32` below.
-/

/-- The length of one side of a cubic sector (`SECTOR_SIZE` in `mod.rs`). -/
def SECTOR_SIZE : Nat := 32

/-- `SECTOR_SIZE` as a signed value (`SECTOR_SIZE_S` in the source, an `isize`). -/
def SECTOR_SIZE_S : Int := 32

/-- Modelled from the spec: `SECTOR_LEN` is used by `voxel.rs` but declared in a
revision of `mod.rs` that is not part of the sources at hand; the spec fixes it
as the number `N³` of blocks of one sector. -/
def SECTOR_LEN : Nat := SECTOR_SIZE * SECTOR_SIZE * SECTOR_SIZE

/-- A block in the world (`Block` in `voxel.rs`). -/
inductive Block where
  | Air : Block
  | Limestone : Block
  | Loam : Block
  | Grass : Block
  | Tree : Block
  | Leaves : Block
deriving DecidableEq

/-- Determine if the block is air (`Block::is_air`). -/
def Block.is_air : Block → Bool
  | Block.Air => true
  | _ => false

/-- Determine if the block must be drawn (`Block::needs_rendering`). -/
def Block.needs_rendering (b : Block) : Bool :=
  !b.is_air

/-- Sector space coordinates (`SectorSpaceCoords` in `voxel.rs`); the three
`isize` components are modelled as `Int`. -/
structure SectorSpaceCoords where
  x : Int
  y : Int
  z : Int
deriving DecidableEq

/-- The range invariant `SectorSpaceCoords::new` enforces on every component. -/
def SectorSpaceCoords.valid (c : SectorSpaceCoords) : Prop :=
  0 ≤ c.x ∧ c.x < SECTOR_SIZE_S ∧
  0 ≤ c.y ∧ c.y < SECTOR_SIZE_S ∧
  0 ≤ c.z ∧ c.z < SECTOR_SIZE_S

instance (c : SectorSpaceCoords) : Decidable c.valid := by
  unfold SectorSpaceCoords.valid
  infer_instance

/-- `SectorSpaceCoords::new`.  The source panics when a component is out of
range; the panic is modelled as `none`. -/
def SectorSpaceCoords.new (x y z : Int) : Option SectorSpaceCoords :=
  if x < 0              ∨ y < 0              ∨ z < 0 ∨
     SECTOR_SIZE_S ≤ x ∨ SECTOR_SIZE_S ≤ y ∨ SECTOR_SIZE_S ≤ z then
    none
  else
    some ⟨x, y, z⟩

/-- `SectorSpaceCoords::back`: the coord for the block behind this one, when
it does not cross the sector boundary. -/
def SectorSpaceCoords.back (c : SectorSpaceCoords) : Option SectorSpaceCoords :=
  if 0 < c.z then SectorSpaceCoords.new c.x c.y (c.z - 1) else none

/-- `SectorSpaceCoords::front`. -/
def SectorSpaceCoords.front (c : SectorSpaceCoords) : Option SectorSpaceCoords :=
  if c.z < SECTOR_SIZE_S - 1 then SectorSpaceCoords.new c.x c.y (c.z + 1) else none

/-- `SectorSpaceCoords::top`. -/
def SectorSpaceCoords.top (c : SectorSpaceCoords) : Option SectorSpaceCoords :=
  if c.y < SECTOR_SIZE_S - 1 then SectorSpaceCoords.new c.x (c.y + 1) c.z else none

/-- `SectorSpaceCoords::bottom`. -/
def SectorSpaceCoords.bottom (c : SectorSpaceCoords) : Option SectorSpaceCoords :=
  if 0 < c.y then SectorSpaceCoords.new c.x (c.y - 1) c.z else none

/-- `SectorSpaceCoords::left`. -/
def SectorSpaceCoords.left (c : SectorSpaceCoords) : Option SectorSpaceCoords :=
  if 0 < c.x then SectorSpaceCoords.new (c.x - 1) c.y c.z else none

/-- `SectorSpaceCoords::right`. -/
def SectorSpaceCoords.right (c : SectorSpaceCoords) : Option SectorSpaceCoords :=
  if c.x < SECTOR_SIZE_S - 1 then SectorSpaceCoords.new (c.x + 1) c.y c.z else none

/-- The array of blocks of a sector (`BlockList` in `voxel.rs`): `SECTOR_LEN`
blocks in a flat layout, modelled as a length-indexed list. -/
def BlockList : Type :=
  { l : List Block // l.length = SECTOR_LEN }

instance : DecidableEq BlockList := by
  unfold BlockList
  infer_instance

/-- `BlockList::index`: the flat index of sector coords.  The `isize → usize`
casts of the source are `Int.toNat` (the components of a coordinate accepted
by `SectorSpaceCoords::new` are nonnegative). -/
def BlockList.index (pos : SectorSpaceCoords) : Nat :=
  pos.x.toNat + pos.y.toNat * SECTOR_SIZE + pos.z.toNat * SECTOR_SIZE * SECTOR_SIZE

/-- `BlockList::get`.  Indexing in the source panics when out of bounds, which
never happens for a valid coordinate (`index_lt_of_valid`); the impossible
out-of-bounds case returns `Block.Air`. -/
def BlockList.get (bl : BlockList) (pos : SectorSpaceCoords) : Block :=
  bl.val.getD (BlockList.index pos) Block.Air

/-- `BlockList::set`. -/
def BlockList.set (bl : BlockList) (pos : SectorSpaceCoords) (b : Block) : BlockList :=
  ⟨bl.val.set (BlockList.index pos) b, by rw [List.length_set]; exact bl.property⟩

/-- `BlockList::needs_rendering`: the source loops over the array and returns
true at the first block that needs rendering, i.e. `List.any`. -/
def BlockList.needs_rendering (bl : BlockList) : Bool :=
  bl.val.any Block.needs_rendering

/-- `BlockList::new_air`. -/
def BlockList.new_air : BlockList :=
  ⟨List.replicate SECTOR_LEN Block.Air, by simp⟩

/-- A block list whose very first cell is solid; used as a concrete test grid. -/
def soilList : BlockList :=
  ⟨Block.Limestone :: List.replicate (SECTOR_LEN - 1) Block.Air, by
    rw [List.length_cons, List.length_replicate]
    unfold SECTOR_LEN SECTOR_SIZE
    omega⟩

/-- The coordinate stored at flat index `n` (row-major, x fastest). -/
def coordOfIndex (n : Nat) : SectorSpaceCoords :=
  ⟨(n % SECTOR_SIZE : Nat), (n / SECTOR_SIZE % SECTOR_SIZE : Nat),
   (n / (SECTOR_SIZE * SECTOR_SIZE) : Nat)⟩

/-- Every valid local coordinate, listed in flat-index order. -/
def allCoords : List SectorSpaceCoords :=
  (List.range SECTOR_LEN).map coordOfIndex

/-- The mutable cursor of `BlockListIter` in `voxel.rs` (the `list` reference
is passed separately to `next`). -/
structure BlockListIter where
  x : Int
  y : Int
  z : Int
deriving DecidableEq

/-- The start cursor produced by `into_iter`: x starts at `-1` because `next`
increments x before yielding. -/
def BlockList.into_iter : BlockListIter :=
  ⟨-1, 0, 0⟩

/-- The cursor-advance part of `BlockListIter::next` (the nested `if` ladder):
the next cursor, or `none` when the iteration is finished. -/
def BlockListIter.step (it : BlockListIter) : Option BlockListIter :=
  if it.x + 1 < SECTOR_SIZE_S then
    some ⟨it.x + 1, it.y, it.z⟩
  else if it.y + 1 < SECTOR_SIZE_S then
    some ⟨0, it.y + 1, it.z⟩
  else if it.z + 1 < SECTOR_SIZE_S then
    some ⟨0, 0, it.z + 1⟩
  else
    none

/-- `BlockListIter::next`: advance the cursor and yield the coordinate and the
block stored there, together with the updated cursor. -/
def BlockListIter.next (bl : BlockList) (it : BlockListIter) :
    Option ((SectorSpaceCoords × Block) × BlockListIter) :=
  match it.step with
  | none => none
  | some it' => some ((⟨it'.x, it'.y, it'.z⟩, bl.get ⟨it'.x, it'.y, it'.z⟩), it')

/-- Repeatedly calling `next`, collecting the yielded items (fuel-bounded
unfolding of the iterator). -/
def iterList (bl : BlockList) : Nat → BlockListIter → List (SectorSpaceCoords × Block)
  | 0, _ => []
  | f + 1, it =>
    match BlockListIter.next bl it with
    | none => []
    | some (item, it') => item :: iterList bl f it'

/-- The coordinates the iterator visits (the cursor path is independent of the
block contents). -/
def iterCoords : Nat → BlockListIter → List SectorSpaceCoords
  | 0, _ => []
  | f + 1, it =>
    match it.step with
    | none => []
    | some it' => ⟨it'.x, it'.y, it'.z⟩ :: iterCoords f it'

/-- The cursor positioned on the coordinate of flat index `i`. -/
def stCoord (i : Nat) : BlockListIter :=
  ⟨(i % SECTOR_SIZE : Nat), (i / SECTOR_SIZE % SECTOR_SIZE : Nat),
   (i / (SECTOR_SIZE * SECTOR_SIZE) : Nat)⟩

/-- Sector coordinates: the `(i32, i32, i32)` keys of the sector cache. -/
abbrev SectorCoords : Type := Int × Int × Int

/-- Fuel-bounded binary logarithm (structurally recursive so that the kernel
can evaluate it; agrees with `Nat.log2` when the fuel is at least `n`). -/
def log2fuel : Nat → Nat → Nat
  | 0, _ => 0
  | f + 1, n => if 2 ≤ n then log2fuel f (n / 2) + 1 else 0

/-- Computable floor of the binary logarithm; equals `Nat.log2`. -/
def log2c (n : Nat) : Nat :=
  log2fuel n n

/-- Round `n` to the nearest multiple of the step `s`, ties going to the even
multiple. -/
def roundTiesEven (n s : Nat) : Nat :=
  if 2 * (n % s) < s then n / s * s
  else if s < 2 * (n % s) then (n / s + 1) * s
  else if n / s % 2 = 0 then n / s * s else (n / s + 1) * s

/-- Round-to-nearest (ties to even) of a natural number onto the integers
representable in an IEEE-754 `f32` (24-bit significand).  Every natural number
below `2^128` rounds to such an integer: in the binade `[2^e, 2^(e+1))` with
`e ≥ 24` the representable values are the multiples of `2^(e-23)`. -/
def rnd32Nat (n : Nat) : Nat :=
  if n ≤ 2 ^ 24 then n
  else roundTiesEven n (2 ^ (log2c n - 23))

/-- Rounding of an integer onto the `f32`-representable integers.  Every `f32`
value produced by `Terrain::update`'s eviction pass and by `sector_at` is
integral (casts of `i32` values, and differences, products and sums of such
casts), so each `as f32` conversion and each `f32` arithmetic operation is
exactly `rnd32` of the ideal integer result. -/
def rnd32 (x : Int) : Int :=
  if 0 ≤ x then (rnd32Nat x.toNat : Int) else -(rnd32Nat (-x).toNat : Int)

/-- `sector_at` in `mod.rs`: the enclosing sector coordinate of a position,
`(pos.round() / SECTOR_SIZE as f32).floor() as i32` componentwise.  Positions
are modelled as integer triples (a subrange of the `f32` positions); for an
integer position `round` is the identity on its `f32` value `rnd32 p`,
division of a representable value by `32` is an exact exponent shift, and
`floor` of the exact quotient is flooring division by `32`. -/
def sector_at (p : Int × Int × Int) : SectorCoords :=
  ((rnd32 p.1).fdiv SECTOR_SIZE_S,
   (rnd32 p.2.1).fdiv SECTOR_SIZE_S,
   (rnd32 p.2.2).fdiv SECTOR_SIZE_S)

/-- The predicate of the `retain` call in `Terrain::update`: keep a cached
sector `k` when its squared distance to the observer sector `o`, computed in
`f32` (`k.0 as f32 - sector.0 as f32`, then squares and sums, each operation
rounding via `rnd32`), is below `280.0`. -/
def retainKeep (o k : SectorCoords) : Bool :=
  let dx := rnd32 (rnd32 k.1 - rnd32 o.1)
  let dy := rnd32 (rnd32 k.2.1 - rnd32 o.2.1)
  let dz := rnd32 (rnd32 k.2.2 - rnd32 o.2.2)
  let dist_sq := rnd32 (rnd32 (rnd32 (dx * dx) + rnd32 (dy * dy)) + rnd32 (dz * dz))
  decide (dist_sq < 280)

/-- Modelled from the spec: the renderable `Model` is an opaque handle (the
real one owns GPU geometry and a transform); an abstract handle value. -/
abbrev Model : Type := Nat

/-- An individual sector (`Sector` in `voxel.rs`): a grid of blocks plus an
optional model.  The `Sector` revision matching `mod.rs` is not in the sources
at hand; per the spec it owns one voxel grid and an optional derived model. -/
structure Sector where
  blocks : BlockList
  model : Option Model
deriving DecidableEq

/-- Modelled from the spec: `Sector::new(block_list)` as called by
`Terrain::update` creates a sector with a grid and no model. -/
def Sector.new (blocks : BlockList) : Sector :=
  ⟨blocks, none⟩

/-- Modelled from the spec: `Sector::set_model` attaches the freshly built
model to the sector in place. -/
def Sector.set_model (s : Sector) (m : Model) : Sector :=
  ⟨s.blocks, some m⟩

/-- Modelled from the spec: `AdjacentSectors::new(back, front, top, bottom,
left, right)`, the transient read-only aggregate of the six world-space
neighbors passed to mesh construction. -/
structure AdjacentSectors where
  back : Sector
  front : Sector
  top : Sector
  bottom : Sector
  left : Sector
  right : Sector

/-- Modelled from the spec: `Sector::create_model` invokes the opaque
mesh-construction function on the sector (with its coordinates and the
adjacent-sectors view); it is a parameter of the consumer step. -/
abbrev CreateModel : Type :=
  SectorCoords → Sector → AdjacentSectors → Model

/-- The message type of the worker → consumer channel (`Nearby` in `mod.rs`). -/
inductive Nearby where
  | Query : SectorCoords → Bool → Nearby
  | Generated : SectorCoords → BlockList → Nearby
deriving DecidableEq

/-- The sector cache (`sectors: HashMap<(i32,i32,i32), Sector>`), modelled as
an association list; all cache operations are key-based, so the list order is
immaterial to the modelled behaviour. -/
abbrev Cache : Type := List (SectorCoords × Sector)

/-- `HashMap` key lookup (`contains_key` / `get`). -/
def cacheLookup (k : SectorCoords) : Cache → Option Sector
  | [] => none
  | (k', s) :: rest => if k' = k then some s else cacheLookup k rest

/-- `self.sectors.get_mut(&coords).unwrap().set_model(model)`: in-place update
of the (unique) entry at `k`. -/
def setModel (c : Cache) (k : SectorCoords) (m : Model) : Cache :=
  match c with
  | [] => []
  | (k', s) :: rest =>
    if k' = k then (k', s.set_model m) :: rest else (k', s) :: setModel rest k m

/-- `self.sectors.entry(coords).or_insert_with(|| Sector::new(block_list))`:
insert a fresh sector only when the key is absent. -/
def orInsert (c : Cache) (k : SectorCoords) (bl : BlockList) : Cache :=
  match cacheLookup k c with
  | some _ => c
  | none => (k, Sector.new bl) :: c

/-- The `back` neighbor coordinate computed in `Terrain::update`. -/
def backC (k : SectorCoords) : SectorCoords := (k.1, k.2.1, k.2.2 - 1)

/-- The `front` neighbor coordinate computed in `Terrain::update`. -/
def frontC (k : SectorCoords) : SectorCoords := (k.1, k.2.1, k.2.2 + 1)

/-- The `top` neighbor coordinate computed in `Terrain::update`. -/
def topC (k : SectorCoords) : SectorCoords := (k.1, k.2.1 + 1, k.2.2)

/-- The `bottom` neighbor coordinate computed in `Terrain::update`. -/
def bottomC (k : SectorCoords) : SectorCoords := (k.1, k.2.1 - 1, k.2.2)

/-- The `left` neighbor coordinate computed in `Terrain::update`. -/
def leftC (k : SectorCoords) : SectorCoords := (k.1 - 1, k.2.1, k.2.2)

/-- The `right` neighbor coordinate computed in `Terrain::update`. -/
def rightC (k : SectorCoords) : SectorCoords := (k.1 + 1, k.2.1, k.2.2)

/-- The six world-space neighbor coordinates of a sector coordinate. -/
def nbrCoords (k : SectorCoords) : List SectorCoords :=
  [backC k, frontC k, topC k, bottomC k, leftC k, rightC k]

/-- The body of the message-draining loop of `Terrain::update`, for one
received message: the updated cache, the updated list of `Need` sends, and
whether the loop continues (`false` models the `break` statements of the
`Query` arm: `should_render` false, nothing to mesh, or a missing neighbor
— each leaves the state unchanged and ends the whole drain). -/
def processMsg (cm : CreateModel) (m : Nearby) (c : Cache) (nd : List SectorCoords) :
    Cache × List SectorCoords × Bool :=
  match m with
  | Nearby.Query k sr =>
    match cacheLookup k c with
    | some s =>
      if !sr then (c, nd, false)
      else if !s.blocks.needs_rendering || s.model.isSome then (c, nd, false)
      else
        match cacheLookup (backC k) c with
        | none => (c, nd, false)
        | some sb =>
          match cacheLookup (frontC k) c with
          | none => (c, nd, false)
          | some sf =>
            match cacheLookup (topC k) c with
            | none => (c, nd, false)
            | some st =>
              match cacheLookup (bottomC k) c with
              | none => (c, nd, false)
              | some sbo =>
                match cacheLookup (leftC k) c with
                | none => (c, nd, false)
                | some sl =>
                  match cacheLookup (rightC k) c with
                  | none => (c, nd, false)
                  | some sri =>
                    (setModel c k (cm k s (AdjacentSectors.mk sb sf st sbo sl sri)),
                     nd, true)
    | none => (c, nd ++ [k], true)
  | Nearby.Generated k bl => (orInsert c k bl, nd, true)

/-- The message-draining loop of `Terrain::update` (`while let
Ok(nearby) = self.nearby_rx.try_recv()`).  The pending channel contents are
the list `msgs`; `Need` sends (`needed_tx.send`) are collected in `nd`.  The
wall-clock budget test at the bottom of the loop body (`seconds > 0.05`) is
the oracle `ob`: `ob n = true` means the elapsed-time check after the `n`-th
processed message exceeded the budget; a `break` from the body (third
component `false`) or an exceeded budget ends the drain with the current
state. -/
def processLoop (cm : CreateModel) (ob : Nat → Bool) :
    List Nearby → Nat → Cache → List SectorCoords → Cache × List SectorCoords
  | [], _, c, nd => (c, nd)
  | m :: rest, n, c, nd =>
    match processMsg cm m c nd with
    | (c', nd', cont) =>
      if cont && !(ob n) then processLoop cm ob rest (n + 1) c' nd' else (c', nd')

/-- `Terrain::update`: publish the observer position (implicit here — the
worker side is modelled separately), drain the message queue under the budget
oracle, then evict every cached sector failing the distance test against the
observer's sector.  Returns the new cache and the `Need` requests sent. -/
def Terrain.update (cm : CreateModel) (ob : Nat → Bool) (p : Int × Int × Int)
    (msgs : List Nearby) (sectors : Cache) : Cache × List SectorCoords :=
  let dr := processLoop cm ob msgs 0 sectors []
  let o := sector_at p
  (dr.1.filter (fun kv => retainKeep o kv.1), dr.2)

/-- A sequence of `update` calls: each call supplies its budget oracle, its
observer position and the messages pending in the channel at that cycle. -/
def runUpdates (cm : CreateModel)
    (calls : List ((Nat → Bool) × (Int × Int × Int) × List Nearby)) (c : Cache) : Cache :=
  calls.foldl (fun acc call => (Terrain.update cm call.1 call.2.1 call.2.2 acc).1) c

/-- Whether a message is a `Generated` message for coordinate `j`. -/
def isGenFor (j : SectorCoords) : Nearby → Bool
  | Nearby.Generated k _ => decide (k = j)
  | _ => false

/-- `GENERATE_ORDER` in `mod.rs`. -/
def GENERATE_ORDER : List Int := [0, -1, 1, -2, 2, 3, -3]

/-- `RENDER_DIST_AXIS` in `mod.rs`. -/
def RENDER_DIST_AXIS : Int := 2

/-- The `dy` values of the worker's scan, the Rust range `-2..3` in
ascending order. -/
def dyRange : List Int := [-2, -1, 0, 1, 2]

/-- The `Query` messages one worker cycle emits, in emission order: the
`for dx in &GENERATE_ORDER { for dy in -2..3 { for dz in &GENERATE_ORDER`
loop nest of `TerrainGenThread::spawn`, with the `should_render` flag
`dx.abs() <= RENDER_DIST_AXIS && dy.abs() <= 1 && dz.abs() <= RENDER_DIST_AXIS`.
(The send-error early return does not occur while the channel is open.) -/
def workerQueries (o : SectorCoords) : List Nearby :=
  GENERATE_ORDER.bind (fun dx =>
    dyRange.bind (fun dy =>
      GENERATE_ORDER.map (fun dz =>
        Nearby.Query (o.1 + dx, o.2.1 + dy, o.2.2 + dz)
          (decide (|dx| ≤ RENDER_DIST_AXIS ∧ |dy| ≤ 1 ∧ |dz| ≤ RENDER_DIST_AXIS)))))

/-- The sector coordinate a `Nearby` message refers to. -/
def nearbyCoord : Nearby → SectorCoords
  | Nearby.Query k _ => k
  | Nearby.Generated k _ => k

/-- The neighbor-gate invariant of the drain: every cached sector holding a
model either already held one in the starting cache `c0`, or has all six of
its world-space neighbors resident in the current cache `c`. -/
def gateInv (c0 c : Cache) : Prop :=
  ∀ (k : SectorCoords) (s' : Sector), cacheLookup k c = some s' → s'.model.isSome = true →
    (∃ s0 : Sector, cacheLookup k c0 = some s0 ∧ s0.model.isSome = true) ∨
    (∀ jc ∈ nbrCoords k, (cacheLookup jc c).isSome = true)

/-- A sector holding the test grid and no model. -/
def soilSector : Sector :=
  ⟨soilList, none⟩

/-- A sector holding the test grid and a model. -/
def modeledSector : Sector :=
  ⟨soilList, some 0⟩

/-- A concrete mesh-construction function for witnesses. -/
def cm0 : CreateModel :=
  fun _ _ _ => 0

/-- A budget oracle that never reports the budget exceeded. -/
def ob0 : Nat → Bool :=
  fun _ => false

/-- A concrete cache: one sector with a model, at the origin. -/
def c2cache : Cache :=
  [((0, 0, 0), modeledSector)]

/-- A concrete cache for the eviction counterexample: a single sector at
`(2^24 + 3, 11, 12)`. -/
def c3cache : Cache :=
  [((16777219, 11, 12), soilSector)]

/-- A concrete cache: only a model-less sector at the origin (its neighbors
are absent). -/
def c1cache : Cache :=
  [((0, 0, 0), soilSector)]

/-- A concrete cache: a model-less sector at the origin together with all six
of its world-space neighbors. -/
def c6cache : Cache :=
  [((0, 0, 0), soilSector), ((0, 0, -1), soilSector), ((0, 0, 1), soilSector),
   ((0, 1, 0), soilSector), ((0, -1, 0), soilSector), ((-1, 0, 0), soilSector),
   ((1, 0, 0), soilSector)]

theorem index_lt_of_valid (c : SectorSpaceCoords) (h : c.valid) :
    BlockList.index c < SECTOR_LEN := by
  obtain ⟨h1, h2, h3, h4, h5, h6⟩ := h
  unfold BlockList.index SECTOR_LEN SECTOR_SIZE
  unfold SECTOR_SIZE_S at h2 h4 h6
  omega

theorem index_inj_of_valid (c₁ c₂ : SectorSpaceCoords) (h₁ : c₁.valid) (h₂ : c₂.valid)
    (h : BlockList.index c₁ = BlockList.index c₂) : c₁ = c₂ := by
  obtain ⟨a1, a2, a3, a4, a5, a6⟩ := h₁
  obtain ⟨b1, b2, b3, b4, b5, b6⟩ := h₂
  unfold BlockList.index SECTOR_SIZE at h
  unfold SECTOR_SIZE_S at a2 a4 a6 b2 b4 b6
  obtain ⟨x₁, y₁, z₁⟩ := c₁
  obtain ⟨x₂, y₂, z₂⟩ := c₂
  simp only [SectorSpaceCoords.mk.injEq]
  simp only at h a1 a2 a3 a4 a5 a6 b1 b2 b3 b4 b5 b6
  omega

/-- C7: the flat index map `c ↦ c.x + c.y·N + c.z·N²` with `N = 32` is a
bijection between the valid local coordinates and the index range `[0, N³)`:
the index of every valid coordinate lies in range, distinct valid coordinates
receive distinct indices, and every index in range is the image of a valid
coordinate. -/
theorem index_bijection :
    (∀ c : SectorSpaceCoords, c.valid → BlockList.index c < SECTOR_LEN) ∧
    (∀ c₁ c₂ : SectorSpaceCoords, c₁.valid → c₂.valid →
      BlockList.index c₁ = BlockList.index c₂ → c₁ = c₂) ∧
    (∀ n : Nat, n < SECTOR_LEN → ∃ c : SectorSpaceCoords,
      c.valid ∧ BlockList.index c = n) := by
  refine ⟨index_lt_of_valid, index_inj_of_valid, ?_⟩
  intro n hn
  unfold SECTOR_LEN SECTOR_SIZE at hn
  refine ⟨coordOfIndex n, ?_, ?_⟩
  · simp only [coordOfIndex, SectorSpaceCoords.valid, SECTOR_SIZE_S, SECTOR_SIZE]
    omega
  · simp only [coordOfIndex, BlockList.index, SECTOR_SIZE]
    omega

/-- C7 witness: the coordinate `(1, 2, 3)` is valid and its index is in range. -/
theorem index_bijection_witness :
    BlockList.index ⟨1, 2, 3⟩ < SECTOR_LEN :=
  index_bijection.1 ⟨1, 2, 3⟩ (by decide)

/-- C8: for every valid local coordinate, each directional neighbor accessor
returns `none` exactly when the coordinate lies on the corresponding sector
face (component `0` for `back`/`bottom`/`left`, component `N − 1` for
`front`/`top`/`right`), and otherwise returns the valid coordinate offset by
one unit along the corresponding axis (`z−1`, `z+1`, `y+1`, `y−1`, `x−1`,
`x+1` respectively). -/
theorem neighbor_accessors (c : SectorSpaceCoords) (h : c.valid) :
    ((c.back = none ↔ c.z = 0) ∧
      (c.z ≠ 0 → c.back = some ⟨c.x, c.y, c.z - 1⟩ ∧
        SectorSpaceCoords.valid ⟨c.x, c.y, c.z - 1⟩)) ∧
    ((c.front = none ↔ c.z = SECTOR_SIZE_S - 1) ∧
      (c.z ≠ SECTOR_SIZE_S - 1 → c.front = some ⟨c.x, c.y, c.z + 1⟩ ∧
        SectorSpaceCoords.valid ⟨c.x, c.y, c.z + 1⟩)) ∧
    ((c.top = none ↔ c.y = SECTOR_SIZE_S - 1) ∧
      (c.y ≠ SECTOR_SIZE_S - 1 → c.top = some ⟨c.x, c.y + 1, c.z⟩ ∧
        SectorSpaceCoords.valid ⟨c.x, c.y + 1, c.z⟩)) ∧
    ((c.bottom = none ↔ c.y = 0) ∧
      (c.y ≠ 0 → c.bottom = some ⟨c.x, c.y - 1, c.z⟩ ∧
        SectorSpaceCoords.valid ⟨c.x, c.y - 1, c.z⟩)) ∧
    ((c.left = none ↔ c.x = 0) ∧
      (c.x ≠ 0 → c.left = some ⟨c.x - 1, c.y, c.z⟩ ∧
        SectorSpaceCoords.valid ⟨c.x - 1, c.y, c.z⟩)) ∧
    ((c.right = none ↔ c.x = SECTOR_SIZE_S - 1) ∧
      (c.x ≠ SECTOR_SIZE_S - 1 → c.right = some ⟨c.x + 1, c.y, c.z⟩ ∧
        SectorSpaceCoords.valid ⟨c.x + 1, c.y, c.z⟩)) := by
  obtain ⟨h1, h2, h3, h4, h5, h6⟩ := h
  unfold SECTOR_SIZE_S at h2 h4 h6 ⊢
  unfold SectorSpaceCoords.back SectorSpaceCoords.front SectorSpaceCoords.top
    SectorSpaceCoords.bottom SectorSpaceCoords.left SectorSpaceCoords.right
    SectorSpaceCoords.new SectorSpaceCoords.valid SECTOR_SIZE_S
  refine ⟨⟨?_, ?_⟩, ⟨?_, ?_⟩, ⟨?_, ?_⟩, ⟨?_, ?_⟩, ⟨?_, ?_⟩, ⟨?_, ?_⟩⟩ <;>
    split_ifs <;> simp_all <;> omega

/-- C8 witness: at the valid coordinate `(0, 5, 31)`, `back` steps to
`(0, 5, 30)` and `left` is blocked by the `x = 0` face. -/
theorem neighbor_accessors_witness :
    SectorSpaceCoords.back ⟨0, 5, 31⟩ = some ⟨0, 5, 30⟩ ∧
    SectorSpaceCoords.left ⟨0, 5, 31⟩ = none := by
  have h := neighbor_accessors ⟨0, 5, 31⟩ (by decide)
  exact ⟨(h.1.2 (by decide)).1, h.2.2.2.2.1.1.mpr rfl⟩

theorem getD_set_self (l : List Block) (i : Nat) (b : Block) (h : i < l.length) :
    (l.set i b).getD i Block.Air = b := by
  rw [List.getD_eq_getElem?_getD, List.getElem?_set_self (by simpa using h)]
  rfl

theorem getD_set_ne (l : List Block) (i j : Nat) (b : Block) (h : i ≠ j) :
    (l.set i b).getD j Block.Air = l.getD j Block.Air := by
  rw [List.getD_eq_getElem?_getD, List.getElem?_set_ne h, ← List.getD_eq_getElem?_getD]

/-- C10: `set` mutates exactly one cell: after `set c b`, `get c` returns `b`,
and `get` at any other valid coordinate is unchanged. -/
theorem set_frame (bl : BlockList) (c : SectorSpaceCoords) (b : Block) (h : c.valid) :
    (bl.set c b).get c = b ∧
    (∀ c' : SectorSpaceCoords, c'.valid → c' ≠ c → (bl.set c b).get c' = bl.get c') := by
  constructor
  · unfold BlockList.get BlockList.set
    exact getD_set_self _ _ _ (by rw [bl.property]; exact index_lt_of_valid c h)
  · intro c' hc' hne
    unfold BlockList.get BlockList.set
    refine getD_set_ne _ _ _ _ ?_
    intro hidx
    exact hne (index_inj_of_valid c c' h hc' hidx).symm

/-- C10 witness: setting the origin cell of the all-air grid to `Limestone`
changes that cell and leaves `(1, 0, 0)` untouched. -/
theorem set_frame_witness :
    (BlockList.new_air.set ⟨0, 0, 0⟩ Block.Limestone).get ⟨0, 0, 0⟩ = Block.Limestone ∧
    (BlockList.new_air.set ⟨0, 0, 0⟩ Block.Limestone).get ⟨1, 0, 0⟩ =
      BlockList.new_air.get ⟨1, 0, 0⟩ := by
  have h := set_frame BlockList.new_air ⟨0, 0, 0⟩ Block.Limestone (by decide)
  exact ⟨h.1, h.2 ⟨1, 0, 0⟩ (by decide) (by decide)⟩

theorem iterList_eq_map (bl : BlockList) :
    ∀ (f : Nat) (it : BlockListIter),
      iterList bl f it = (iterCoords f it).map (fun c => (c, bl.get c)) := by
  intro f
  induction f with
  | zero => intro it; rfl
  | succ f ih =>
    intro it
    cases h : it.step with
    | none => simp [iterList, iterCoords, BlockListIter.next, h]
    | some it' => simp [iterList, iterCoords, BlockListIter.next, h, ih]

theorem stCoord_toCoord (j : Nat) :
    (⟨(stCoord j).x, (stCoord j).y, (stCoord j).z⟩ : SectorSpaceCoords) = coordOfIndex j :=
  rfl

theorem step_into_iter : BlockList.into_iter.step = some (stCoord 0) := by
  decide

theorem step_last : (stCoord (SECTOR_LEN - 1)).step = none := by
  decide

theorem step_stCoord (i : Nat) (h : i + 1 < SECTOR_LEN) :
    (stCoord i).step = some (stCoord (i + 1)) := by
  unfold SECTOR_LEN SECTOR_SIZE at h
  simp only [BlockListIter.step, stCoord, SECTOR_SIZE_S, SECTOR_SIZE]
  split_ifs with h1 h2 h3 <;>
    first
      | (simp only [Option.some.injEq, BlockListIter.mk.injEq]; omega)
      | (exfalso; omega)

theorem iterCoords_succ (f : Nat) (it it' : BlockListIter) (h : it.step = some it') :
    iterCoords (f + 1) it = ⟨it'.x, it'.y, it'.z⟩ :: iterCoords f it' := by
  simp [iterCoords, h]

theorem iterCoords_from :
    ∀ (m i : Nat), i + m = SECTOR_LEN →
      iterCoords m (stCoord i) = (List.range' (i + 1) (m - 1)).map coordOfIndex := by
  intro m
  induction m with
  | zero => intro i hi; rfl
  | succ m ih =>
    intro i hi
    cases m with
    | zero =>
      have hi' : i = SECTOR_LEN - 1 := by omega
      subst hi'
      simp [iterCoords, step_last]
    | succ m' =>
      have h2 := step_stCoord i (by omega)
      rw [iterCoords_succ (m' + 1) _ _ h2]
      rw [ih (i + 1) (by omega)]
      simp only [Nat.add_sub_cancel, Nat.succ_sub_one]
      rw [List.range'_succ]
      simp [stCoord_toCoord]

theorem iterCoords_full :
    iterCoords (SECTOR_LEN + 1) BlockList.into_iter = allCoords := by
  rw [iterCoords_succ SECTOR_LEN _ _ step_into_iter]
  rw [iterCoords_from SECTOR_LEN 0 (by omega)]
  rw [stCoord_toCoord]
  unfold allCoords
  rw [List.range_eq_range']
  have h : SECTOR_LEN = (SECTOR_LEN - 1) + 1 := by
    unfold SECTOR_LEN SECTOR_SIZE
    omega
  rw [h, List.range'_succ]
  simp

theorem coordOfIndex_inj (a b : Nat) (ha : a < SECTOR_LEN) (hb : b < SECTOR_LEN)
    (h : coordOfIndex a = coordOfIndex b) : a = b := by
  unfold SECTOR_LEN SECTOR_SIZE at ha hb
  simp only [coordOfIndex, SECTOR_SIZE, SectorSpaceCoords.mk.injEq, Nat.cast_inj] at h
  omega

/-- C9: iterating a voxel grid from `into_iter` yields the `(coordinate, block)`
pairs of all `N³ = 32768` valid local coordinates, each exactly once
(`allCoords` is nodup and consists of exactly the valid coordinates), in
increasing x-then-y-then-z order (flat-index order: position `n` of the
enumeration holds `coordOfIndex n`), each yielded block being `get` of the
yielded coordinate; the iteration stops by itself (the fuel `N³ + 1` exceeds
the number of items by one, so the last `next` call returned `none`), and
each call of `into_iter` restarts at the same initial cursor, so iteration
is a pure function of the grid. -/
theorem iteration_complete (bl : BlockList) :
    iterList bl (SECTOR_LEN + 1) BlockList.into_iter
      = allCoords.map (fun c => (c, bl.get c)) ∧
    allCoords.length = SECTOR_LEN ∧
    allCoords.Nodup ∧
    (∀ c : SectorSpaceCoords, c ∈ allCoords ↔ c.valid) ∧
    (∀ n : Nat, n < SECTOR_LEN → allCoords.get? n = some (coordOfIndex n)) := by
  refine ⟨?_, ?_, ?_, ?_, ?_⟩
  · rw [iterList_eq_map bl (SECTOR_LEN + 1) BlockList.into_iter, iterCoords_full]
  · simp [allCoords]
  · refine List.Nodup.map_on ?_ (List.nodup_range _)
    intro x hx y hy hxy
    exact coordOfIndex_inj x y (List.mem_range.mp hx) (List.mem_range.mp hy) hxy
  · intro c
    constructor
    · intro hc
      obtain ⟨n, hn, rfl⟩ := List.mem_map.mp hc
      have hn' := List.mem_range.mp hn
      unfold SECTOR_LEN SECTOR_SIZE at hn'
      simp only [coordOfIndex, SectorSpaceCoords.valid, SECTOR_SIZE_S, SECTOR_SIZE]
      omega
    · intro hv
      refine List.mem_map.mpr ⟨BlockList.index c, List.mem_range.mpr (index_lt_of_valid c hv), ?_⟩
      obtain ⟨q1, q2, q3, q4, q5, q6⟩ := hv
      unfold SECTOR_SIZE_S at q2 q4 q6
      obtain ⟨x, y, z⟩ := c
      simp only at q1 q2 q3 q4 q5 q6
      simp only [coordOfIndex, BlockList.index, SECTOR_SIZE, SectorSpaceCoords.mk.injEq]
      refine ⟨?_, ?_, ?_⟩ <;> omega
  · intro n hn
    unfold allCoords
    rw [List.get?_map, List.get?_range hn]
    rfl

set_option maxRecDepth 40000 in
/-- C5 counterexample: with the observer at the world origin the worker's
emission sequence contains, at position 1, a query for offset `(0, -2, -1)` —
an offset containing a `±1` component (its `dz`) — while the first query for
offset `(0, 0, 0)` only appears at position 14.  So the offset `(0,0,0)` is
not emitted before every offset containing a `±1` component, refuting the
claim as stated. -/
theorem worker_order_counterexample :
    (workerQueries (sector_at (0, 0, 0))).get? 1 = some (Nearby.Query (0, -2, -1) false) ∧
    (workerQueries (sector_at (0, 0, 0))).findIdx?
      (fun m => decide (nearbyCoord m = (0, 0, 0))) = some 14 ∧
    (1 : Nat) < 14 := by
  decide

set_option maxRecDepth 40000 in
/-- C5 (amended): with the observer at the world origin, the worker computes
observer sector `(0, 0, 0)` and within one cycle emits the 245 `Query`
messages of the neighborhood with the `dx`/`dz` components enumerated in the
fixed alternating-outward order `0, −1, +1, −2, +2, +3, −3`; the offset
`(0,0,0)` (first at position 14, with `should_render` true) is emitted before
any offset whose `dx` component is `±1` (first at position 35). -/
theorem worker_order :
    sector_at (0, 0, 0) = (0, 0, 0) ∧
    GENERATE_ORDER = [0, -1, 1, -2, 2, 3, -3] ∧
    (workerQueries (sector_at (0, 0, 0))).length = 245 ∧
    (workerQueries (sector_at (0, 0, 0))).findIdx?
      (fun m => decide (nearbyCoord m = (0, 0, 0))) = some 14 ∧
    (workerQueries (sector_at (0, 0, 0))).get? 14 = some (Nearby.Query (0, 0, 0) true) ∧
    (workerQueries (sector_at (0, 0, 0))).findIdx?
      (fun m => decide ((nearbyCoord m).1.natAbs = 1)) = some 35 := by
  decide

theorem roundTiesEven_ge_div (n s : Nat) : n / s * s ≤ roundTiesEven n s := by
  have base : n / s * s ≤ (n / s + 1) * s := Nat.mul_le_mul_right s (Nat.le_succ _)
  unfold roundTiesEven
  split_ifs <;> first | exact Nat.le_refl _ | exact base

theorem rnd32Nat_of_le {n : Nat} (h : n ≤ 2 ^ 24) : rnd32Nat n = n := by
  unfold rnd32Nat
  rw [if_pos h]

theorem log2fuel_eq : ∀ (f n : Nat), n ≤ f → log2fuel f n = Nat.log2 n := by
  intro f
  induction f with
  | zero =>
    intro n hn
    have h0 : n = 0 := Nat.le_zero.mp hn
    subst h0
    simp [log2fuel, Nat.log2]
  | succ f ih =>
    intro n hn
    rw [Nat.log2]
    simp only [log2fuel]
    by_cases h2 : 2 ≤ n
    · rw [if_pos h2, if_pos h2, ih (n / 2) (by omega)]
    · rw [if_neg h2, if_neg h2]

theorem log2c_eq (n : Nat) : log2c n = Nat.log2 n :=
  log2fuel_eq n n (Nat.le_refl n)

theorem rnd32Nat_lower {n : Nat} (h : 2 ^ 24 < n) : 2 ^ 24 ≤ rnd32Nat n := by
  unfold rnd32Nat
  rw [if_neg (Nat.not_le.mpr h), log2c_eq]
  have hn0 : n ≠ 0 := by
    intro h0
    rw [h0] at h
    exact absurd h (by norm_num)
  have hlog_le : 2 ^ Nat.log2 n ≤ n := Nat.log2_self_le hn0
  have hlt : n < 2 ^ (Nat.log2 n + 1) := Nat.lt_log2_self
  have h24 : 24 ≤ Nat.log2 n := by
    by_contra hc
    push_neg at hc
    have h3 : 2 ^ (Nat.log2 n + 1) ≤ 2 ^ 24 := Nat.pow_le_pow_right (by norm_num) (by omega)
    omega
  have hq : 2 ^ 23 ≤ n / 2 ^ (Nat.log2 n - 23) := by
    have h1 : 2 ^ Nat.log2 n / 2 ^ (Nat.log2 n - 23) ≤ n / 2 ^ (Nat.log2 n - 23) :=
      Nat.div_le_div_right hlog_le
    have h2 : 2 ^ Nat.log2 n / 2 ^ (Nat.log2 n - 23) = 2 ^ 23 := by
      rw [Nat.pow_div (by omega) (by norm_num)]
      congr 1
      omega
    omega
  calc (2:Nat) ^ 24 ≤ 2 ^ Nat.log2 n := Nat.pow_le_pow_right (by norm_num) h24
    _ = 2 ^ 23 * 2 ^ (Nat.log2 n - 23) := by rw [← pow_add]; congr 1; omega
    _ ≤ n / 2 ^ (Nat.log2 n - 23) * 2 ^ (Nat.log2 n - 23) := Nat.mul_le_mul_right _ hq
    _ ≤ roundTiesEven n (2 ^ (Nat.log2 n - 23)) := roundTiesEven_ge_div n _

theorem rnd32_of_abs_le {x : Int} (h : |x| ≤ 2 ^ 24) : rnd32 x = x := by
  rw [abs_le] at h
  obtain ⟨h1, h2⟩ := h
  unfold rnd32
  split_ifs with hx
  · rw [rnd32Nat_of_le (by omega), Int.toNat_of_nonneg hx]
  · push_neg at hx
    rw [rnd32Nat_of_le (by omega), Int.toNat_of_nonneg (by omega)]
    exact neg_neg x

theorem rnd32_nonneg {x : Int} (h : 0 ≤ x) : 0 ≤ rnd32 x := by
  unfold rnd32
  rw [if_pos h]
  positivity

theorem rnd32_ge_of_le {c x : Int} (hc0 : 0 ≤ c) (hc : c ≤ 2 ^ 24) (h : c ≤ x) :
    c ≤ rnd32 x := by
  unfold rnd32
  rw [if_pos (le_trans hc0 h)]
  by_cases hx : x.toNat ≤ 2 ^ 24
  · rw [rnd32Nat_of_le hx]
    omega
  · have hlow := rnd32Nat_lower (Nat.not_le.mp hx)
    have h2 : ((2:Int)) ^ 24 ≤ (rnd32Nat x.toNat : Int) := by exact_mod_cast hlow
    linarith

theorem rnd32_neg (x : Int) : rnd32 (-x) = - rnd32 x := by
  rcases lt_trichotomy x 0 with h | h | h
  · unfold rnd32
    rw [if_pos (by omega), if_neg (by omega)]
    simp
  · subst h
    unfold rnd32
    norm_num
    rw [rnd32Nat_of_le (by norm_num)]
    norm_num
  · unfold rnd32
    rw [if_neg (by omega), if_pos (by omega)]
    simp

theorem rnd32_mul_self_ge {x : Int} (h : 17 ≤ |x|) : 289 ≤ rnd32 x * rnd32 x := by
  have key : ∀ y : Int, 17 ≤ y → 289 ≤ rnd32 y * rnd32 y := by
    intro y hy
    have h1 : (17:Int) ≤ rnd32 y := rnd32_ge_of_le (by norm_num) (by norm_num) hy
    calc (289:Int) = 17 * 17 := by norm_num
      _ ≤ rnd32 y * rnd32 y := mul_le_mul h1 h1 (by norm_num) (by linarith)
  rcases le_or_lt 0 x with hx | hx
  · exact key x (by rwa [abs_of_nonneg hx] at h)
  · have h2 : 17 ≤ -x := by rwa [abs_of_neg hx] at h
    have h3 := key (-x) h2
    rw [rnd32_neg] at h3
    calc (289:Int) ≤ -rnd32 x * -rnd32 x := h3
      _ = rnd32 x * rnd32 x := by ring

theorem rnd32_chain_ge (x y z : Int) (hx : 0 ≤ x) (hy : 0 ≤ y) (hz : 0 ≤ z)
    (h : 289 ≤ x ∨ 289 ≤ y ∨ 289 ≤ z) :
    289 ≤ rnd32 (rnd32 (rnd32 x + rnd32 y) + rnd32 z) := by
  have hx' := rnd32_nonneg hx
  have hy' := rnd32_nonneg hy
  have hz' := rnd32_nonneg hz
  have step : ∀ w : Int, 289 ≤ w → (289:Int) ≤ rnd32 w :=
    fun w hw => rnd32_ge_of_le (by norm_num) (by norm_num) hw
  have hsum : (289:Int) ≤ rnd32 (rnd32 x + rnd32 y) + rnd32 z := by
    rcases h with h | h | h
    · have ha := step x h
      have hb := step (rnd32 x + rnd32 y) (by linarith)
      linarith
    · have ha := step y h
      have hb := step (rnd32 x + rnd32 y) (by linarith)
      linarith
    · have ha := step z h
      have hb : 0 ≤ rnd32 (rnd32 x + rnd32 y) := rnd32_nonneg (by linarith)
      linarith
  exact step _ hsum

theorem retain_iff_big (d1 d2 d3 : Int)
    (h : 17 ≤ |d1| ∨ 17 ≤ |d2| ∨ 17 ≤ |d3|) :
    (rnd32 (rnd32 (rnd32 (rnd32 d1 * rnd32 d1) + rnd32 (rnd32 d2 * rnd32 d2)) +
        rnd32 (rnd32 d3 * rnd32 d3)) < 280 ↔
      d1 ^ 2 + d2 ^ 2 + d3 ^ 2 < 280) := by
  have sq17 : ∀ d : Int, 17 ≤ |d| → 289 ≤ d ^ 2 := by
    intro d hd
    have h2 : (17:Int) ^ 2 ≤ |d| ^ 2 := pow_le_pow_left (by norm_num) hd 2
    rw [sq_abs] at h2
    linarith
  apply iff_of_false
  · have hchain := rnd32_chain_ge (rnd32 d1 * rnd32 d1) (rnd32 d2 * rnd32 d2)
      (rnd32 d3 * rnd32 d3) (mul_self_nonneg _) (mul_self_nonneg _) (mul_self_nonneg _) ?_
    · linarith
    · rcases h with h | h | h
      · exact Or.inl (rnd32_mul_self_ge h)
      · exact Or.inr (Or.inl (rnd32_mul_self_ge h))
      · exact Or.inr (Or.inr (rnd32_mul_self_ge h))
  · have s1 := sq_nonneg d1
    have s2 := sq_nonneg d2
    have s3 := sq_nonneg d3
    rcases h with h | h | h
    · have := sq17 d1 h
      linarith
    · have := sq17 d2 h
      linarith
    · have := sq17 d3 h
      linarith

theorem retainKeep_iff (o k : SectorCoords)
    (hk1 : |k.1| ≤ 2 ^ 24) (hk2 : |k.2.1| ≤ 2 ^ 24) (hk3 : |k.2.2| ≤ 2 ^ 24)
    (ho1 : |o.1| ≤ 2 ^ 24) (ho2 : |o.2.1| ≤ 2 ^ 24) (ho3 : |o.2.2| ≤ 2 ^ 24) :
    (retainKeep o k = true ↔
      (k.1 - o.1) ^ 2 + (k.2.1 - o.2.1) ^ 2 + (k.2.2 - o.2.2) ^ 2 < 280) := by
  simp only [retainKeep, decide_eq_true_eq]
  rw [rnd32_of_abs_le hk1, rnd32_of_abs_le hk2, rnd32_of_abs_le hk3,
      rnd32_of_abs_le ho1, rnd32_of_abs_le ho2, rnd32_of_abs_le ho3]
  by_cases h1 : |k.1 - o.1| ≤ 16 <;>
    by_cases h2 : |k.2.1 - o.2.1| ≤ 16 <;>
    by_cases h3 : |k.2.2 - o.2.2| ≤ 16
  · rw [rnd32_of_abs_le (le_trans h1 (by norm_num)),
        rnd32_of_abs_le (le_trans h2 (by norm_num)),
        rnd32_of_abs_le (le_trans h3 (by norm_num))]
    have b1 : |(k.1 - o.1) * (k.1 - o.1)| ≤ 256 := by
      rw [abs_mul]
      calc |k.1 - o.1| * |k.1 - o.1| ≤ 16 * 16 :=
        mul_le_mul h1 h1 (abs_nonneg _) (by norm_num)
        _ = 256 := by norm_num
    have b2 : |(k.2.1 - o.2.1) * (k.2.1 - o.2.1)| ≤ 256 := by
      rw [abs_mul]
      calc |k.2.1 - o.2.1| * |k.2.1 - o.2.1| ≤ 16 * 16 :=
        mul_le_mul h2 h2 (abs_nonneg _) (by norm_num)
        _ = 256 := by norm_num
    have b3 : |(k.2.2 - o.2.2) * (k.2.2 - o.2.2)| ≤ 256 := by
      rw [abs_mul]
      calc |k.2.2 - o.2.2| * |k.2.2 - o.2.2| ≤ 16 * 16 :=
        mul_le_mul h3 h3 (abs_nonneg _) (by norm_num)
        _ = 256 := by norm_num
    rw [rnd32_of_abs_le (le_trans b1 (by norm_num)),
        rnd32_of_abs_le (le_trans b2 (by norm_num)),
        rnd32_of_abs_le (le_trans b3 (by norm_num))]
    have bsum : |(k.1 - o.1) * (k.1 - o.1) + (k.2.1 - o.2.1) * (k.2.1 - o.2.1)| ≤ 512 := by
      calc |(k.1 - o.1) * (k.1 - o.1) + (k.2.1 - o.2.1) * (k.2.1 - o.2.1)|
          ≤ |(k.1 - o.1) * (k.1 - o.1)| + |(k.2.1 - o.2.1) * (k.2.1 - o.2.1)| := abs_add _ _
        _ ≤ 512 := by linarith
    rw [rnd32_of_abs_le (le_trans bsum (by norm_num))]
    have btot : |(k.1 - o.1) * (k.1 - o.1) + (k.2.1 - o.2.1) * (k.2.1 - o.2.1) +
        (k.2.2 - o.2.2) * (k.2.2 - o.2.2)| ≤ 768 := by
      calc |(k.1 - o.1) * (k.1 - o.1) + (k.2.1 - o.2.1) * (k.2.1 - o.2.1) +
          (k.2.2 - o.2.2) * (k.2.2 - o.2.2)|
          ≤ |(k.1 - o.1) * (k.1 - o.1) + (k.2.1 - o.2.1) * (k.2.1 - o.2.1)| +
            |(k.2.2 - o.2.2) * (k.2.2 - o.2.2)| := abs_add _ _
        _ ≤ 768 := by linarith
    rw [rnd32_of_abs_le (le_trans btot (by norm_num))]
    rw [pow_two, pow_two, pow_two]
  · exact retain_iff_big _ _ _ (Or.inr (Or.inr (by omega)))
  · exact retain_iff_big _ _ _ (Or.inr (Or.inl (by omega)))
  · exact retain_iff_big _ _ _ (Or.inr (Or.inl (by omega)))
  · exact retain_iff_big _ _ _ (Or.inl (by omega))
  · exact retain_iff_big _ _ _ (Or.inl (by omega))
  · exact retain_iff_big _ _ _ (Or.inl (by omega))
  · exact retain_iff_big _ _ _ (Or.inl (by omega))

theorem cacheLookup_filter (q : SectorCoords → Bool) (k : SectorCoords) :
    ∀ c : Cache, cacheLookup k (c.filter (fun kv => q kv.1)) =
      if q k = true then cacheLookup k c else none := by
  intro c
  induction c with
  | nil => simp [cacheLookup]
  | cons hd tl ih =>
    obtain ⟨k', s⟩ := hd
    by_cases hq : q k' = true
    · by_cases hk : k' = k
      · subst hk
        simp [List.filter_cons, hq, cacheLookup]
      · simp [List.filter_cons, hq, cacheLookup, hk, ih]
    · by_cases hk : k' = k
      · subst hk
        simp [List.filter_cons, hq, cacheLookup, ih]
      · simp [List.filter_cons, hq, cacheLookup, hk, ih]

theorem cacheLookup_setModel_self (k : SectorCoords) (m : Model) :
    ∀ c : Cache, cacheLookup k (setModel c k m) =
      (cacheLookup k c).map (fun s => s.set_model m) := by
  intro c
  induction c with
  | nil => rfl
  | cons hd tl ih =>
    obtain ⟨k', s⟩ := hd
    by_cases hk : k' = k
    · subst hk
      simp [setModel, cacheLookup]
    · simp [setModel, cacheLookup, hk, ih]

theorem cacheLookup_setModel_ne (k j : SectorCoords) (m : Model) (h : j ≠ k) :
    ∀ c : Cache, cacheLookup j (setModel c k m) = cacheLookup j c := by
  intro c
  induction c with
  | nil => rfl
  | cons hd tl ih =>
    obtain ⟨k', s⟩ := hd
    by_cases hk : k' = k
    · subst hk
      simp [setModel, cacheLookup, Ne.symm h]
    · by_cases hj : k' = j
      · subst hj
        simp [setModel, cacheLookup, hk]
      · simp [setModel, cacheLookup, hk, hj, ih]

theorem cacheLookup_setModel_isSome (k j : SectorCoords) (m : Model) (c : Cache)
    (h : (cacheLookup j c).isSome = true) :
    (cacheLookup j (setModel c k m)).isSome = true := by
  by_cases hj : j = k
  · subst hj
    rw [cacheLookup_setModel_self]
    simp_all
  · rw [cacheLookup_setModel_ne k j m hj]
    exact h

theorem processMsg_cases (cm : CreateModel) (m : Nearby) (c : Cache) (nd : List SectorCoords) :
    (processMsg cm m c nd).1 = c ∨
    (∃ (k : SectorCoords) (s sb sf st sbo sl sri : Sector),
      m = Nearby.Query k true ∧ cacheLookup k c = some s ∧
      s.model = none ∧ s.blocks.needs_rendering = true ∧
      cacheLookup (backC k) c = some sb ∧ cacheLookup (frontC k) c = some sf ∧
      cacheLookup (topC k) c = some st ∧ cacheLookup (bottomC k) c = some sbo ∧
      cacheLookup (leftC k) c = some sl ∧ cacheLookup (rightC k) c = some sri ∧
      (processMsg cm m c nd).1 =
        setModel c k (cm k s (AdjacentSectors.mk sb sf st sbo sl sri))) ∨
    (∃ (k : SectorCoords) (bl : BlockList),
      m = Nearby.Generated k bl ∧ cacheLookup k c = none ∧
      (processMsg cm m c nd).1 = (k, Sector.new bl) :: c) := by
  cases m with
  | Generated k bl =>
    cases h : cacheLookup k c with
    | some s =>
      left
      simp [processMsg, orInsert, h]
    | none =>
      right; right
      exact ⟨k, bl, rfl, h, by simp [processMsg, orInsert, h]⟩
  | Query k sr =>
    cases h : cacheLookup k c with
    | none =>
      left
      simp [processMsg, h]
    | some s =>
      cases hsr : sr with
      | false =>
        left
        simp [processMsg, h]
      | true =>
        cases hnr : s.blocks.needs_rendering with
        | false =>
          left
          simp [processMsg, h, hnr]
        | true =>
          cases hms : s.model.isSome with
          | true =>
            left
            simp [processMsg, h, hnr, hms]
          | false =>
            have hmn : s.model = none := by
              cases hsm : s.model <;> simp_all
            cases hb : cacheLookup (backC k) c with
            | none => left; simp [processMsg, h, hnr, hms, hb]
            | some sb =>
              cases hf : cacheLookup (frontC k) c with
              | none => left; simp [processMsg, h, hnr, hms, hb, hf]
              | some sf =>
                cases ht : cacheLookup (topC k) c with
                | none => left; simp [processMsg, h, hnr, hms, hb, hf, ht]
                | some st =>
                  cases hbo : cacheLookup (bottomC k) c with
                  | none => left; simp [processMsg, h, hnr, hms, hb, hf, ht, hbo]
                  | some sbo =>
                    cases hl : cacheLookup (leftC k) c with
                    | none => left; simp [processMsg, h, hnr, hms, hb, hf, ht, hbo, hl]
                    | some sl =>
                      cases hr : cacheLookup (rightC k) c with
                      | none => left; simp [processMsg, h, hnr, hms, hb, hf, ht, hbo, hl, hr]
                      | some sri =>
                        right; left
                        exact ⟨k, s, sb, sf, st, sbo, sl, sri, rfl, h, hmn, hnr,
                          hb, hf, ht, hbo, hl, hr,
                          by simp [processMsg, h, hnr, hms, hb, hf, ht, hbo, hl, hr]⟩

theorem processMsg_isSome (cm : CreateModel) (m : Nearby) (c : Cache) (nd : List SectorCoords)
    (k : SectorCoords) (h : (cacheLookup k c).isSome = true) :
    (cacheLookup k (processMsg cm m c nd).1).isSome = true := by
  rcases processMsg_cases cm m c nd with hc |
    ⟨k', s, sb, sf, st, sbo, sl, sri, _, _, _, _, _, _, _, _, _, _, hres⟩ |
    ⟨k', bl, _, _, hres⟩
  · rwa [hc]
  · rw [hres]
    exact cacheLookup_setModel_isSome k' k _ c h
  · rw [hres]
    by_cases hk : k' = k
    · subst hk
      simp [cacheLookup]
    · simp [cacheLookup, hk, h]

theorem processLoop_isSome (cm : CreateModel) (ob : Nat → Bool) :
    ∀ (msgs : List Nearby) (n : Nat) (c : Cache) (nd : List SectorCoords) (k : SectorCoords),
      (cacheLookup k c).isSome = true →
      (cacheLookup k (processLoop cm ob msgs n c nd).1).isSome = true := by
  intro msgs
  induction msgs with
  | nil =>
    intro n c nd k h
    simpa [processLoop] using h
  | cons m rest ih =>
    intro n c nd k h
    have hm := processMsg_isSome cm m c nd k h
    rcases hr : processMsg cm m c nd with ⟨c', nd', cont⟩
    rw [hr] at hm
    simp only [processLoop, hr]
    split
    · exact ih (n + 1) c' nd' k hm
    · exact hm

/-- C4: processing a `Generated{coordinate, grid}` message whose coordinate is
already in the cache leaves the cache unchanged (first writer wins): the whole
state is untouched, so the previously stored sector is still there and the
cache size is unchanged. -/
theorem generated_first_writer (cm : CreateModel) (ob : Nat → Bool) (n : Nat)
    (c : Cache) (nd : List SectorCoords) (k : SectorCoords) (bl : BlockList) (s : Sector)
    (h : cacheLookup k c = some s) :
    processLoop cm ob [Nearby.Generated k bl] n c nd = (c, nd) ∧
    cacheLookup k (processLoop cm ob [Nearby.Generated k bl] n c nd).1 = some s ∧
    (processLoop cm ob [Nearby.Generated k bl] n c nd).1.length = c.length := by
  have hm : processMsg cm (Nearby.Generated k bl) c nd = (c, nd, true) := by
    simp [processMsg, orInsert, h]
  have hloop : processLoop cm ob [Nearby.Generated k bl] n c nd = (c, nd) := by
    simp only [processLoop, hm]
    cases hob : ob n <;> simp [processLoop]
  refine ⟨hloop, ?_, ?_⟩
  · rw [hloop]
    exact h
  · rw [hloop]

/-- C4 witness: a duplicate `Generated` for the origin, which is already
cached, changes nothing. -/
theorem generated_first_writer_witness :
    processLoop cm0 ob0 [Nearby.Generated (0, 0, 0) BlockList.new_air] 0 c2cache [] =
      (c2cache, []) :=
  (generated_first_writer cm0 ob0 0 c2cache [] (0, 0, 0) BlockList.new_air
    modeledSector rfl).1

theorem processMsg_break (cm : CreateModel) (k : SectorCoords) (sr : Bool) (c : Cache)
    (nd : List SectorCoords) (s : Sector) (h : cacheLookup k c = some s)
    (hcond : sr = false ∨ s.blocks.needs_rendering = false ∨ s.model.isSome = true ∨
      cacheLookup (backC k) c = none ∨ cacheLookup (frontC k) c = none ∨
      cacheLookup (topC k) c = none ∨ cacheLookup (bottomC k) c = none ∨
      cacheLookup (leftC k) c = none ∨ cacheLookup (rightC k) c = none) :
    processMsg cm (Nearby.Query k sr) c nd = (c, nd, false) := by
  cases hsr : sr with
  | false => simp [processMsg, h]
  | true =>
    subst hsr
    cases hnr : s.blocks.needs_rendering with
    | false => simp [processMsg, h, hnr]
    | true =>
      cases hms : s.model.isSome with
      | true => simp [processMsg, h, hnr, hms]
      | false =>
        rcases hcond with hc | hc | hc | hc | hc | hc | hc | hc | hc
        · exact absurd hc (by simp)
        · rw [hnr] at hc
          exact absurd hc (by simp)
        · rw [hms] at hc
          exact absurd hc (by simp)
        · simp [processMsg, h, hnr, hms, hc]
        · cases hb : cacheLookup (backC k) c <;>
            simp [processMsg, h, hnr, hms, hb, hc]
        · cases hb : cacheLookup (backC k) c <;>
            cases hf : cacheLookup (frontC k) c <;>
            simp [processMsg, h, hnr, hms, hb, hf, hc]
        · cases hb : cacheLookup (backC k) c <;>
            cases hf : cacheLookup (frontC k) c <;>
            cases ht : cacheLookup (topC k) c <;>
            simp [processMsg, h, hnr, hms, hb, hf, ht, hc]
        · cases hb : cacheLookup (backC k) c <;>
            cases hf : cacheLookup (frontC k) c <;>
            cases ht : cacheLookup (topC k) c <;>
            cases hbo : cacheLookup (bottomC k) c <;>
            simp [processMsg, h, hnr, hms, hb, hf, ht, hbo, hc]
        · cases hb : cacheLookup (backC k) c <;>
            cases hf : cacheLookup (frontC k) c <;>
            cases ht : cacheLookup (topC k) c <;>
            cases hbo : cacheLookup (bottomC k) c <;>
            cases hl : cacheLookup (leftC k) c <;>
            simp [processMsg, h, hnr, hms, hb, hf, ht, hbo, hl, hc]

/-- C2 (amended): when the drain meets a `Query` whose coordinate is cached
with `should_render` true but the sector's grid is air-only, or it already has
a model, or one of its six neighbors is missing, `update` does not merely skip
that message: the `break` ends the whole drain for this cycle — the state is
unchanged and none of the remaining messages of the drain are processed. -/
theorem drain_stops (cm : CreateModel) (ob : Nat → Bool) (k : SectorCoords)
    (rest : List Nearby) (n : Nat) (c : Cache) (nd : List SectorCoords) (s : Sector)
    (h : cacheLookup k c = some s)
    (hcond : s.blocks.needs_rendering = false ∨ s.model.isSome = true ∨
      ∃ jc ∈ nbrCoords k, cacheLookup jc c = none) :
    processLoop cm ob (Nearby.Query k true :: rest) n c nd = (c, nd) := by
  have hbreak : processMsg cm (Nearby.Query k true) c nd = (c, nd, false) := by
    apply processMsg_break cm k true c nd s h
    rcases hcond with hc | hc | ⟨jc, hjc, hnone⟩
    · exact Or.inr (Or.inl hc)
    · exact Or.inr (Or.inr (Or.inl hc))
    · simp only [nbrCoords, List.mem_cons, List.not_mem_nil, or_false] at hjc
      rcases hjc with rfl | rfl | rfl | rfl | rfl | rfl
      · exact Or.inr (Or.inr (Or.inr (Or.inl hnone)))
      · exact Or.inr (Or.inr (Or.inr (Or.inr (Or.inl hnone))))
      · exact Or.inr (Or.inr (Or.inr (Or.inr (Or.inr (Or.inl hnone)))))
      · exact Or.inr (Or.inr (Or.inr (Or.inr (Or.inr (Or.inr (Or.inl hnone))))))
      · exact Or.inr (Or.inr (Or.inr (Or.inr (Or.inr (Or.inr (Or.inr (Or.inl hnone)))))))
      · exact Or.inr (Or.inr (Or.inr (Or.inr (Or.inr (Or.inr (Or.inr (Or.inr hnone)))))))
  simp only [processLoop, hbreak]
  simp

/-- C2 witness: a cached origin sector that already has a model makes the
drain stop immediately, leaving cache and `Need` list unchanged. -/
theorem drain_stops_witness :
    processLoop cm0 ob0
      [Nearby.Query (0, 0, 0) true, Nearby.Query (5, 5, 5) true] 0 c2cache [] =
      (c2cache, []) :=
  drain_stops cm0 ob0 (0, 0, 0) [Nearby.Query (5, 5, 5) true] 0 c2cache []
    modeledSector rfl (Or.inr (Or.inl rfl))

/-- C2 counterexample: the cache holds only the origin sector, which already
has a model.  The drain receives `Query (0,0,0) true` followed by
`Query (5,5,5) true`, and `(5,5,5)` is not cached — were the skip-and-continue
claim true, processing would reach the second message and enqueue
`Need (5,5,5)`, so the returned `Need` list would be `[(5,5,5)]`.  The code
instead breaks out of the whole drain at the first message: the `Need` list
comes back empty. -/
theorem drain_skip_counterexample :
    cacheLookup (5, 5, 5) c2cache = none ∧
    (Terrain.update cm0 ob0 (0, 0, 0)
      [Nearby.Query (0, 0, 0) true, Nearby.Query (5, 5, 5) true] c2cache).2 = [] := by
  exact ⟨rfl, rfl⟩

theorem retainKeep_self (o : SectorCoords) : retainKeep o o = true := by
  have h0 : rnd32 0 = 0 := rnd32_of_abs_le (by norm_num)
  simp [retainKeep, sub_self, h0]

/-- C3 counterexample: with the observer at world position `(2^29, 0, 0)`
(observer sector `(2^24, 0, 0)`) and a cached sector at `(2^24 + 3, 11, 12)`,
the exact squared sector distance is `3² + 11² + 12² = 274 < 280`, so by the
claim the sector must remain cached; but the `f32` computation rounds
`2^24 + 3` to `2^24 + 4`, computes `16 + 121 + 144 = 281 ≥ 280`, and `update`
evicts the sector. -/
theorem eviction_counterexample :
    ((16777219 - 16777216 : Int) ^ 2 + (11 - 0 : Int) ^ 2 + (12 - 0 : Int) ^ 2 < 280) ∧
    sector_at (536870912, 0, 0) = (16777216, 0, 0) ∧
    cacheLookup (16777219, 11, 12)
      (Terrain.update cm0 ob0 (536870912, 0, 0) [] c3cache).1 = none := by
  refine ⟨by norm_num, by decide, by decide⟩

/-- C3 (amended): for coordinates within the `f32`-exact range (all components
of the cached coordinate and of the observer's sector of magnitude at most
`2^24`), a previously cached sector survives `update` exactly when its exact
squared sector distance to the observer's sector is below 280.  (Outside that
range the `f32` rounding of the eviction test can disagree with the exact
distance — see the counterexample.) -/
theorem eviction_distance (cm : CreateModel) (ob : Nat → Bool) (p : Int × Int × Int)
    (msgs : List Nearby) (c : Cache) (k : SectorCoords) (s : Sector)
    (hs : cacheLookup k c = some s)
    (hk1 : |k.1| ≤ 2 ^ 24) (hk2 : |k.2.1| ≤ 2 ^ 24) (hk3 : |k.2.2| ≤ 2 ^ 24)
    (ho1 : |(sector_at p).1| ≤ 2 ^ 24) (ho2 : |(sector_at p).2.1| ≤ 2 ^ 24)
    (ho3 : |(sector_at p).2.2| ≤ 2 ^ 24) :
    ((cacheLookup k (Terrain.update cm ob p msgs c).1).isSome = true ↔
      (k.1 - (sector_at p).1) ^ 2 + (k.2.1 - (sector_at p).2.1) ^ 2 +
        (k.2.2 - (sector_at p).2.2) ^ 2 < 280) := by
  have hiff := retainKeep_iff (sector_at p) k hk1 hk2 hk3 ho1 ho2 ho3
  have hpres := processLoop_isSome cm ob msgs 0 c [] k (by simp [hs])
  simp only [Terrain.update]
  rw [cacheLookup_filter]
  by_cases hrk : retainKeep (sector_at p) k = true
  · rw [if_pos hrk]
    exact iff_of_true hpres (hiff.mp hrk)
  · rw [if_neg hrk]
    refine iff_of_false (by simp) (fun hlt => hrk (hiff.mpr hlt))

/-- C3 witness: the origin sector survives an update with the observer at the
origin, and indeed its squared distance 0 is below 280. -/
theorem eviction_distance_witness :
    (cacheLookup (0, 0, 0) (Terrain.update cm0 ob0 (0, 0, 0) [] c2cache).1).isSome = true ↔
      (((0 : Int), (0 : Int), (0 : Int)).1 - (sector_at (0, 0, 0)).1) ^ 2 +
        (((0 : Int), (0 : Int), (0 : Int)).2.1 - (sector_at (0, 0, 0)).2.1) ^ 2 +
        (((0 : Int), (0 : Int), (0 : Int)).2.2 - (sector_at (0, 0, 0)).2.2) ^ 2 < 280 :=
  eviction_distance cm0 ob0 (0, 0, 0) [] c2cache (0, 0, 0) modeledSector rfl
    (by decide) (by decide) (by decide) (by decide) (by decide) (by decide)

/-- C6: for a cached sector whose grid has at least one non-air block and
whose six world-space neighbors are all resident, `update` attaches the model
built by the opaque mesh constructor, and a second `update` receiving the same
`Query` does not rebuild or replace it: the sector still holds exactly the
first model (and its grid is unchanged).  The observer positions keep the
target inside eviction range. -/
theorem mesh_exactly_once (cm : CreateModel) (ob1 ob2 : Nat → Bool)
    (p1 p2 : Int × Int × Int) (c : Cache) (k : SectorCoords)
    (s sb sf st sbo sl sri : Sector)
    (hk : cacheLookup k c = some s) (hm : s.model = none)
    (hnr : s.blocks.needs_rendering = true)
    (hb : cacheLookup (backC k) c = some sb) (hf : cacheLookup (frontC k) c = some sf)
    (ht : cacheLookup (topC k) c = some st) (hbo : cacheLookup (bottomC k) c = some sbo)
    (hl : cacheLookup (leftC k) c = some sl) (hr : cacheLookup (rightC k) c = some sri)
    (hp1 : sector_at p1 = k) (hp2 : sector_at p2 = k) :
    cacheLookup k (Terrain.update cm ob1 p1 [Nearby.Query k true] c).1 =
      some ⟨s.blocks, some (cm k s (AdjacentSectors.mk sb sf st sbo sl sri))⟩ ∧
    cacheLookup k (Terrain.update cm ob2 p2 [Nearby.Query k true]
        (Terrain.update cm ob1 p1 [Nearby.Query k true] c).1).1 =
      some ⟨s.blocks, some (cm k s (AdjacentSectors.mk sb sf st sbo sl sri))⟩ := by
  have hms : s.model.isSome = false := by
    rw [hm]
    rfl
  have hpm : processMsg cm (Nearby.Query k true) c [] =
      (setModel c k (cm k s (AdjacentSectors.mk sb sf st sbo sl sri)), [], true) := by
    simp [processMsg, hk, hnr, hms, hb, hf, ht, hbo, hl, hr]
  have hloop1 : processLoop cm ob1 [Nearby.Query k true] 0 c [] =
      (setModel c k (cm k s (AdjacentSectors.mk sb sf st sbo sl sri)), []) := by
    simp only [processLoop, hpm]
    cases hob : ob1 0 <;> simp [processLoop]
  have hu1 : cacheLookup k (Terrain.update cm ob1 p1 [Nearby.Query k true] c).1 =
      some ⟨s.blocks, some (cm k s (AdjacentSectors.mk sb sf st sbo sl sri))⟩ := by
    simp only [Terrain.update, hloop1]
    rw [hp1, cacheLookup_filter, if_pos (retainKeep_self k), cacheLookup_setModel_self, hk]
    rfl
  refine ⟨hu1, ?_⟩
  set u1 := (Terrain.update cm ob1 p1 [Nearby.Query k true] c).1 with hu1def
  have hpm2 : processMsg cm (Nearby.Query k true) u1 [] = (u1, [], false) :=
    processMsg_break cm k true u1 [] _ hu1 (Or.inr (Or.inr (Or.inl rfl)))
  have hloop2 : processLoop cm ob2 [Nearby.Query k true] 0 u1 [] = (u1, []) := by
    simp only [processLoop, hpm2]
    simp
  simp only [Terrain.update, hloop2]
  rw [hp2, cacheLookup_filter, if_pos (retainKeep_self k)]
  exact hu1

/-- C6 witness: with the origin sector and its six neighbors cached, one
update attaches model `0` (the value of the concrete mesh constructor) and a
second update leaves exactly that model in place. -/
theorem mesh_exactly_once_witness :
    cacheLookup (0, 0, 0)
      (Terrain.update cm0 ob0 (0, 0, 0) [Nearby.Query (0, 0, 0) true] c6cache).1 =
      some ⟨soilSector.blocks, some (cm0 (0, 0, 0) soilSector
        (AdjacentSectors.mk soilSector soilSector soilSector soilSector soilSector
          soilSector))⟩ ∧
    cacheLookup (0, 0, 0)
      (Terrain.update cm0 ob0 (0, 0, 0) [Nearby.Query (0, 0, 0) true]
        (Terrain.update cm0 ob0 (0, 0, 0) [Nearby.Query (0, 0, 0) true] c6cache).1).1 =
      some ⟨soilSector.blocks, some (cm0 (0, 0, 0) soilSector
        (AdjacentSectors.mk soilSector soilSector soilSector soilSector soilSector
          soilSector))⟩ :=
  mesh_exactly_once cm0 ob0 ob0 (0, 0, 0) (0, 0, 0) c6cache (0, 0, 0)
    soilSector soilSector soilSector soilSector soilSector soilSector soilSector
    rfl rfl rfl rfl rfl rfl rfl rfl rfl (by decide) (by decide)

theorem gateInv_init (c : Cache) : gateInv c c :=
  fun _ ss h hs => Or.inl ⟨ss, h, hs⟩

theorem cons_isSome_mono (k' : SectorCoords) (e : SectorCoords × Sector) (c : Cache)
    (h : (cacheLookup k' c).isSome = true) :
    (cacheLookup k' (e :: c)).isSome = true := by
  obtain ⟨ke, se⟩ := e
  by_cases hk : ke = k'
  · subst hk
    simp [cacheLookup]
  · simp [cacheLookup, hk, h]

theorem processMsg_inv (cm : CreateModel) (m : Nearby) (c : Cache) (nd : List SectorCoords)
    (k j : SectorCoords) (hj : j ∈ nbrCoords k)
    (hjn : cacheLookup j c = none)
    (hkm : ∀ s, cacheLookup k c = some s → s.model = none)
    (hgen : isGenFor j m = false) :
    cacheLookup j (processMsg cm m c nd).1 = none ∧
    (∀ s, cacheLookup k (processMsg cm m c nd).1 = some s → s.model = none) := by
  rcases processMsg_cases cm m c nd with hc |
    ⟨k', s, sb, sf, st, sbo, sl, sri, hm', hk', hmod, hnr, hb, hf, ht, hbo, hl, hr, hres⟩ |
    ⟨k', bl, hm', hnone, hres⟩
  · rw [hc]
    exact ⟨hjn, hkm⟩
  · have hjk' : j ≠ k' := by
      intro he
      rw [he] at hjn
      rw [hjn] at hk'
      simp at hk'
    have hkk' : k ≠ k' := by
      intro he
      subst he
      simp only [nbrCoords, List.mem_cons, List.not_mem_nil, or_false] at hj
      rcases hj with rfl | rfl | rfl | rfl | rfl | rfl <;> simp_all
    constructor
    · rw [hres, cacheLookup_setModel_ne k' j _ hjk']
      exact hjn
    · intro s2 hs2
      rw [hres, cacheLookup_setModel_ne k' k _ hkk'] at hs2
      exact hkm s2 hs2
  · have hk'j : k' ≠ j := by
      intro he
      subst he
      rw [hm'] at hgen
      simp [isGenFor] at hgen
    constructor
    · rw [hres]
      simp [cacheLookup, hk'j, hjn]
    · intro s2 hs2
      rw [hres] at hs2
      by_cases hk'k : k' = k
      · subst hk'k
        simp [cacheLookup] at hs2
        rw [← hs2]
        rfl
      · simp [cacheLookup, hk'k] at hs2
        exact hkm s2 hs2

theorem processLoop_inv (cm : CreateModel) (ob : Nat → Bool) (k j : SectorCoords)
    (hj : j ∈ nbrCoords k) :
    ∀ (msgs : List Nearby) (n : Nat) (c : Cache) (nd : List SectorCoords),
      cacheLookup j c = none →
      (∀ s, cacheLookup k c = some s → s.model = none) →
      (∀ m ∈ msgs, isGenFor j m = false) →
      cacheLookup j (processLoop cm ob msgs n c nd).1 = none ∧
      (∀ s, cacheLookup k (processLoop cm ob msgs n c nd).1 = some s → s.model = none) := by
  intro msgs
  induction msgs with
  | nil =>
    intro n c nd h1 h2 _
    exact ⟨h1, h2⟩
  | cons m rest ih =>
    intro n c nd h1 h2 h3
    have hm := processMsg_inv cm m c nd k j hj h1 h2 (h3 m (List.mem_cons_self m rest))
    rcases hr : processMsg cm m c nd with ⟨c', nd', cont⟩
    rw [hr] at hm
    simp only [processLoop, hr]
    split
    · exact ih (n + 1) c' nd' hm.1 hm.2 (fun m' hm' => h3 m' (List.mem_cons_of_mem m hm'))
    · exact hm

theorem update_inv (cm : CreateModel) (ob : Nat → Bool) (p : Int × Int × Int)
    (msgs : List Nearby) (c : Cache) (k j : SectorCoords) (hj : j ∈ nbrCoords k)
    (h1 : cacheLookup j c = none)
    (h2 : ∀ s, cacheLookup k c = some s → s.model = none)
    (h3 : ∀ m ∈ msgs, isGenFor j m = false) :
    cacheLookup j (Terrain.update cm ob p msgs c).1 = none ∧
    (∀ s, cacheLookup k (Terrain.update cm ob p msgs c).1 = some s → s.model = none) := by
  have hpl := processLoop_inv cm ob k j hj msgs 0 c [] h1 h2 h3
  simp only [Terrain.update]
  constructor
  · rw [cacheLookup_filter]
    split_ifs with hq
    · exact hpl.1
    · rfl
  · intro s hs
    rw [cacheLookup_filter] at hs
    split_ifs at hs with hq
    · exact hpl.2 s hs

theorem processMsg_gate (cm : CreateModel) (m : Nearby) (c0 c : Cache)
    (nd : List SectorCoords) (hg : gateInv c0 c) :
    gateInv c0 (processMsg cm m c nd).1 := by
  rcases processMsg_cases cm m c nd with hc |
    ⟨k', s, sb, sf, st, sbo, sl, sri, hm', hk', hmod, hnr, hb, hf, ht, hbo, hl, hr, hres⟩ |
    ⟨k', bl, hm', hnone, hres⟩
  · rwa [hc]
  · rw [hres]
    intro kk ss hlook hsome
    by_cases hkk : kk = k'
    · subst hkk
      right
      intro jc hjc
      apply cacheLookup_setModel_isSome
      simp only [nbrCoords, List.mem_cons, List.not_mem_nil, or_false] at hjc
      rcases hjc with rfl | rfl | rfl | rfl | rfl | rfl
      · simp [hb]
      · simp [hf]
      · simp [ht]
      · simp [hbo]
      · simp [hl]
      · simp [hr]
    · rw [cacheLookup_setModel_ne k' kk _ hkk] at hlook
      rcases hg kk ss hlook hsome with hpre | hnbr
      · exact Or.inl hpre
      · right
        intro jc hjc
        exact cacheLookup_setModel_isSome k' jc _ c (hnbr jc hjc)
  · rw [hres]
    intro kk ss hlook hsome
    by_cases hkk : k' = kk
    · subst hkk
      simp [cacheLookup] at hlook
      rw [← hlook] at hsome
      simp [Sector.new] at hsome
    · simp [cacheLookup, hkk] at hlook
      rcases hg kk ss hlook hsome with hpre | hnbr
      · exact Or.inl hpre
      · right
        intro jc hjc
        exact cons_isSome_mono jc _ c (hnbr jc hjc)

theorem processLoop_gate (cm : CreateModel) (ob : Nat → Bool) (c0 : Cache) :
    ∀ (msgs : List Nearby) (n : Nat) (c : Cache) (nd : List SectorCoords),
      gateInv c0 c → gateInv c0 (processLoop cm ob msgs n c nd).1 := by
  intro msgs
  induction msgs with
  | nil =>
    intro n c nd hg
    exact hg
  | cons m rest ih =>
    intro n c nd hg
    have hm := processMsg_gate cm m c0 c nd hg
    rcases hr : processMsg cm m c nd with ⟨c', nd', cont⟩
    rw [hr] at hm
    simp only [processLoop, hr]
    split
    · exact ih (n + 1) c' nd' hm
    · exact hm

/-- C1: the neighbor-completeness gate.  First part: during one drain, any
cached sector that holds a model without having held one before the drain has
all six of its world-space neighbors resident (the cache only grows during a
drain, so residency at the end of the drain subsumes residency at the moment
of attachment).  Second part: over any sequence of `update` calls, if some
neighbor `j` of `k` is initially absent from the cache and no `Generated{j}`
message is ever delivered (so `j` is never inserted), then `j` stays absent
and no call ever attaches a model to `k`. -/
theorem model_attach_gate :
    (∀ (cm : CreateModel) (ob : Nat → Bool) (msgs : List Nearby) (n : Nat) (c : Cache)
        (nd : List SectorCoords) (k : SectorCoords) (s' : Sector),
      (∀ s0, cacheLookup k c = some s0 → s0.model = none) →
      cacheLookup k (processLoop cm ob msgs n c nd).1 = some s' →
      s'.model.isSome = true →
      ∀ jc ∈ nbrCoords k, (cacheLookup jc (processLoop cm ob msgs n c nd).1).isSome = true) ∧
    (∀ (cm : CreateModel) (calls : List ((Nat → Bool) × (Int × Int × Int) × List Nearby))
        (c : Cache) (k j : SectorCoords),
      j ∈ nbrCoords k →
      cacheLookup j c = none →
      (∀ s, cacheLookup k c = some s → s.model = none) →
      (∀ call ∈ calls, ∀ m ∈ call.2.2, isGenFor j m = false) →
      cacheLookup j (runUpdates cm calls c) = none ∧
      (∀ s, cacheLookup k (runUpdates cm calls c) = some s → s.model = none)) := by
  constructor
  · intro cm ob msgs n c nd k s' h0 hlook hsome jc hjc
    have hg := processLoop_gate cm ob c msgs n c nd (gateInv_init c)
    rcases hg k s' hlook hsome with ⟨s0, hs0, hs0m⟩ | hnbr
    · rw [h0 s0 hs0] at hs0m
      simp at hs0m
    · exact hnbr jc hjc
  · intro cm calls
    induction calls with
    | nil =>
      intro c k j hj h1 h2 h3
      exact ⟨h1, h2⟩
    | cons call rest ih =>
      intro c k j hj h1 h2 h3
      have hu := update_inv cm call.1 call.2.1 call.2.2 c k j hj h1 h2
        (fun m hm => h3 call (List.mem_cons_self call rest) m hm)
      have hrest := ih ((Terrain.update cm call.1 call.2.1 call.2.2 c).1) k j hj hu.1 hu.2
        (fun call' hc' m hm => h3 call' (List.mem_cons_of_mem call hc') m hm)
      simpa [runUpdates, List.foldl_cons] using hrest

/-- C1 witness: meshing the origin with all six neighbors resident leaves a
neighbor resident after the drain; and with the `(0,0,1)` neighbor absent and
never generated, an update call attaches no model to the origin and the
neighbor stays absent. -/
theorem model_attach_gate_witness :
    (cacheLookup (0, 0, 1)
      (processLoop cm0 ob0 [Nearby.Query (0, 0, 0) true] 0 c6cache []).1).isSome = true ∧
    cacheLookup (0, 0, 1)
      (runUpdates cm0 [(ob0, (0, 0, 0), [Nearby.Query (0, 0, 0) true])] c1cache) = none := by
  refine ⟨model_attach_gate.1 cm0 ob0 [Nearby.Query (0, 0, 0) true] 0 c6cache [] (0, 0, 0)
      ⟨soilList, some 0⟩ ?_ rfl rfl (0, 0, 1) (by decide),
    (model_attach_gate.2 cm0 [(ob0, (0, 0, 0), [Nearby.Query (0, 0, 0) true])] c1cache
      (0, 0, 0) (0, 0, 1) (by decide) rfl ?_ (by decide)).1⟩
  · intro s0 h
    have hv : cacheLookup (0, 0, 0) c6cache = some soilSector := rfl
    rw [hv] at h
    injection h with h'
    rw [← h']
    rfl
  · intro s0 h
    have hv : cacheLookup (0, 0, 0) c1cache = some soilSector := rfl
    rw [hv] at h
    injection h with h'
    rw [← h']
    rfl

/-- C9 witness: in the enumeration, position 0 holds the coordinate of flat
index 0. -/
theorem iteration_complete_witness :
    allCoords.get? 0 = some (coordOfIndex 0) :=
  (iteration_complete BlockList.new_air).2.2.2.2 0 (by decide)
